import Mathlib

/-!
Verification of the pykli Thorlabs APT/Kinesis driver
(`src/kli/thorlabs/__init__.py`) against its specification.

Shallow embedding conventions:
  * byte strings are `List Nat` (each element a byte value);
  * `struct.pack` fields are laid out explicitly little-endian;
  * Python `float` arithmetic is modelled over `ℚ`; Python's `int(...)`
    truncation toward zero is `pyInt`;
  * a method that writes to the transport returns
    `Except String (List (List Nat))`: `.ok ws` is the list of byte strings
    passed to successive `self._write(...)` calls, `.error msg` models a
    `raise` before any write happens;
  * `_read_packet` is modelled on a byte stream (`readPacket`), and the
    polling loop `_get_packet` on a transport abstracted as the list of
    successive `_read_packet` results.
-/

set_option maxRecDepth 4000

namespace PyKli

/-! ## Wire codec (struct.pack / struct.unpack layouts) -/

/-- `struct.pack('<H', n)`: 16-bit little-endian, valid for `n < 65536`. -/
def packU16 (n : Nat) : List Nat := [n % 256, n / 256]

/-- `struct.pack('<i', z)`: 32-bit little-endian two's complement,
valid for `-2^31 ≤ z < 2^31`. -/
def packI32 (z : Int) : List Nat :=
  let n := (z % 4294967296).toNat
  [n % 256, n / 256 % 256, n / 65536 % 256, n / 16777216 % 256]

/-- `struct.pack('<H4B', cmd, param1, param2, dest, src)`
(`_write_packet`, short form, line 118). -/
def encodeShortHeader (cmd param1 param2 dest src : Nat) : List Nat :=
  packU16 cmd ++ [param1, param2, dest, src]

/-- `struct.pack('<2H2B', cmd, len(data), dest | 0x80, src)`
(`_write_packet`, long form, line 120). -/
def encodeLongHeader (cmd len dest src : Nat) : List Nat :=
  packU16 cmd ++ packU16 len ++ [dest ||| 128, src]

/-- `_write_packet(cmd, param1, param2, data, dest, src)`: short form when
`data is None`, long form (header then payload) when `data is not None`.
The `else: raise ValueError(...)` branch in the source is unreachable,
so no input produces `.error`. -/
def writePacket (cmd param1 param2 : Nat) (data : Option (List Nat))
    (dest src : Nat) : Except String (List (List Nat)) :=
  match data with
  | none => .ok [encodeShortHeader cmd param1 param2 dest src]
  | some d => .ok [encodeLongHeader cmd d.length dest src, d]

/-- Result of decoding a 6-byte header in `_read_packet`: byte 4's 0x80 bit
selects long form (bytes 2-3 are a payload length) versus short form
(bytes 2-3 are param1/param2). -/
inductive DecodedHeader where
  | shortForm (cmd param1 param2 dest src : Nat)
  | longForm (cmd length dest src : Nat)
  deriving DecidableEq

/-- Header decoding logic of `_read_packet` (lines 130-142): `none` when
fewer than 6 bytes were read; otherwise `cmd = unpack('<H', header[0:2])`,
and byte 4's 0x80 bit picks the form. -/
def decodeHeader (h : List Nat) : Option DecodedHeader :=
  match h with
  | [b0, b1, b2, b3, b4, b5] =>
    if b4 &&& 128 ≠ 0 then
      some (.longForm (b0 + 256 * b1) (b2 + 256 * b3) (b4 &&& 127) b5)
    else
      some (.shortForm (b0 + 256 * b1) b2 b3 b4 b5)
  | _ => none

/-- A decoded packet as built by `_read_packet` (the `result` dict). -/
inductive Packet where
  | short (cmd param1 param2 dest src : Nat)
  | long (cmd : Nat) (data : List Nat) (dest src : Nat)
  deriving DecidableEq

/-- The `cmd` entry of the decoded packet dict. -/
def Packet.cmd : Packet → Nat
  | .short c _ _ _ _ => c
  | .long c _ _ _ => c

/-- `_read_packet` over a byte stream: read 6 header bytes (`none` if fewer
are available, with the short read still consumed), then for a long-form
header read the advertised number of payload bytes. Returns the decoded
packet and the unconsumed stream. The inner `none` case is unreachable:
`decodeHeader` always succeeds on a 6-byte list. -/
def readPacket (stream : List Nat) : Option Packet × List Nat :=
  match stream with
  | b0 :: b1 :: b2 :: b3 :: b4 :: b5 :: rest =>
    match decodeHeader [b0, b1, b2, b3, b4, b5] with
    | some (.shortForm c p1 p2 d s) => (some (.short c p1 p2 d s), rest)
    | some (.longForm c len d s) =>
        (some (.long c (rest.take len) d s), rest.drop len)
    | none => (none, rest)
  | _ => (none, [])

/-! ## Transaction engine (`_get_packet`) -/

/-- State of the transport as seen by the polling loop: the list of results
of successive `_read_packet` calls (`none` models a timed-out read), plus
whether the port is open. `_get_packet` never closes the port. -/
structure Transport where
  reads : List (Option Packet)
  isOpen : Bool
  deriving DecidableEq

/-- The `ValueError(f'Expected packet with command 0x{cmd:02x}, ...')`
raised by `_get_packet`; it carries the expected command code. -/
structure TimeoutError where
  expected : Nat
  deriving DecidableEq

/-- `_get_packet(cmd, attempts)`: repeatedly call `_read_packet`; return the
first decoded packet whose `cmd` matches; discard non-matching packets and
`None` results; after `attempts` attempts raise a timeout naming `cmd`. -/
def getPacket (cmd : Nat) : Nat → Transport → Except TimeoutError Packet × Transport
  | 0, t => (.error ⟨cmd⟩, t)
  | n + 1, t =>
    match t.reads with
    | [] => getPacket cmd n t
    | r :: rest =>
      match r with
      | some pkt =>
        if pkt.cmd = cmd then (.ok pkt, ⟨rest, t.isOpen⟩)
        else getPacket cmd n ⟨rest, t.isOpen⟩
      | none => getPacket cmd n ⟨rest, t.isOpen⟩

/-! ## Unit conversion layer (KDC101) -/

/-- Python `int(q)`: truncation toward zero. -/
def pyInt (q : ℚ) : Int := if 0 ≤ q then ⌊q⌋ else ⌈q⌉

/-- The `int(x * conv + 0.5)` encode idiom used by `move` (line 359),
`set_vel_params` (lines 442-444) and `set_volts` (line 252). -/
def to_raw (scale x : ℚ) : Int := pyInt (x * scale + 1 / 2)

/-- `KDC101.DRIVER_T = 2048/6E6`. -/
def DRIVER_T : ℚ := 2048 / 6000000

/-- The three conversion attributes `_x_conv`, `_v_conv`, `_a_conv`. -/
structure ConvFactors where
  x_conv : ℚ
  v_conv : ℚ
  a_conv : ℚ
  deriving DecidableEq

/-- `KDC101.set_counts_per_unit(counts)` (lines 297-300), the only writer of
the three conversion attributes. -/
def set_counts_per_unit (counts : ℚ) : ConvFactors :=
  let v := counts * DRIVER_T * 65536
  ⟨counts, v, v * DRIVER_T⟩

/-! ## Device profile operations -/

/-- `KDC101.move(distance, channel, absolute)` (lines 333-365): encode
`d = int(distance * self._x_conv + 0.5)` and send `(channel, d)` as
`'<Hi'` under 0x0453 (absolute) or 0x0448 (relative). -/
def move (x_conv : ℚ) (distance : ℚ) (channel : Nat) (absolute : Bool) :
    Except String (List (List Nat)) :=
  let d := to_raw x_conv distance
  if absolute then
    writePacket 0x0453 0 0 (some (packU16 channel ++ packI32 d)) 0x50 0x01
  else
    writePacket 0x0448 0 0 (some (packU16 channel ++ packI32 d)) 0x50 0x01

/-- `KDC101.set_vel_params(accel, max_vel, channel, min_vel)`
(lines 425-446): encode all three via `int(v * conv + 0.5)` and send
`'<H3i'` under 0x0413. -/
def set_vel_params (v_conv a_conv : ℚ) (accel max_vel : ℚ) (channel : Nat)
    (min_vel : ℚ) : Except String (List (List Nat)) :=
  let mv := to_raw v_conv min_vel
  let a := to_raw a_conv accel
  let Mv := to_raw v_conv max_vel
  writePacket 0x0413 0 0
    (some (packU16 channel ++ packI32 mv ++ packI32 a ++ packI32 Mv)) 0x50 0x01

/-- `TPZ001.set_volts(V)` (lines 238-252) with `max_volts` already cached:
range check first (raising before any write), then send
`'<2H'` of `(1, int((V / max_volts) * 32767 + 0.5))` under 0x0643. -/
def set_volts (max_volts V : ℚ) : Except String (List (List Nat)) :=
  if V < 0 ∨ max_volts < V then
    .error "V must be between 0 and max_volts"
  else
    writePacket 0x0643 0 0
      (some (packU16 1 ++ packU16 (pyInt (V / max_volts * 32767 + 1 / 2)).toNat))
      0x50 0x01

/-! ## Byte-level helper lemmas -/

theorem land128_of_lt : ∀ d < 128, d &&& 128 = 0 := by decide

theorem land128_of_ge : ∀ d < 256, 128 ≤ d → d &&& 128 = 128 := by decide

theorem land127_of_ge : ∀ d < 256, 128 ≤ d → d &&& 127 = d - 128 := by decide

theorem lor128_land127 : ∀ d < 256, (d ||| 128) &&& 127 = d % 128 := by decide

theorem lor128_land128 : ∀ d < 256, (d ||| 128) &&& 128 = 128 := by decide

/-! ## Wire codec round trips (C3, C10, C4) -/

/-- C3: for every 16-bit command, byte param1, param2, src and a dest byte
forming a valid short-form frame (its 0x80 long-form flag bit clear, i.e.
dest < 0x80), decoding the 6-byte header produced by the short-form encoder
recovers exactly the same command, param1, param2, dest and src. -/
theorem decode_encodeShort_roundtrip (cmd p1 p2 dest src : Nat)
    (hc : cmd < 65536) (h1 : p1 < 256) (h2 : p2 < 256) (hd : dest < 128)
    (hs : src < 256) :
    decodeHeader (encodeShortHeader cmd p1 p2 dest src) =
      some (.shortForm cmd p1 p2 dest src) := by
  have h0 : dest &&& 128 = 0 := land128_of_lt dest hd
  simp [decodeHeader, encodeShortHeader, packU16, h0]
  omega

theorem decode_encodeShort_roundtrip_witness :
    decodeHeader (encodeShortHeader 0x0223 7 9 0x50 0x01) =
      some (.shortForm 0x0223 7 9 0x50 0x01) :=
  decode_encodeShort_roundtrip 0x0223 7 9 0x50 0x01 (by decide) (by decide)
    (by decide) (by decide) (by decide)

/-- C10: giving the short-form encoder a dest byte with bit 0x80 set makes
the decoder read the frame as a long-form header: the destination comes back
with the high bit cleared and param1/param2 are reinterpreted as a
little-endian payload length; the short-form round trip itself holds exactly
when dest < 0x80. -/
theorem decode_encodeShort_highbit (cmd p1 p2 dest src : Nat)
    (hc : cmd < 65536) (h1 : p1 < 256) (h2 : p2 < 256) (hd : dest < 256)
    (hs : src < 256) :
    (128 ≤ dest →
      decodeHeader (encodeShortHeader cmd p1 p2 dest src) =
        some (.longForm cmd (p1 + 256 * p2) (dest - 128) src))
    ∧ (dest < 128 →
      decodeHeader (encodeShortHeader cmd p1 p2 dest src) =
        some (.shortForm cmd p1 p2 dest src)) := by
  constructor
  · intro hge
    have h128 : dest &&& 128 = 128 := land128_of_ge dest hd hge
    have h127 : dest &&& 127 = dest - 128 := land127_of_ge dest hd hge
    simp [decodeHeader, encodeShortHeader, packU16, h128, h127]
    omega
  · intro hlt
    have h0 : dest &&& 128 = 0 := land128_of_lt dest hlt
    simp [decodeHeader, encodeShortHeader, packU16, h0]
    omega

theorem decode_encodeShort_highbit_witness :
    decodeHeader (encodeShortHeader 0x0223 7 9 0xD0 0x01) =
      some (.longForm 0x0223 (7 + 256 * 9) (0xD0 - 128) 0x01) :=
  (decode_encodeShort_highbit 0x0223 7 9 0xD0 0x01 (by decide) (by decide)
    (by decide) (by decide) (by decide)).1 (by decide)

/-- C4: for every payload of length 0 through 65535 (and valid 16-bit
command, byte dest, byte src), long-form encoding followed by decoding the
6-byte header and reading the decoded payload length reconstructs the
original payload exactly; the header carries the 16-bit command, the 16-bit
little-endian length at bytes 2-3, dest with bit 0x80 set at byte 4, and src
at byte 5. -/
theorem encodeLong_roundtrip (cmd : Nat) (data : List Nat) (dest src : Nat)
    (rest : List Nat) (hc : cmd < 65536) (hl : data.length < 65536)
    (hd : dest < 256) (hs : src < 256) :
    decodeHeader (encodeLongHeader cmd data.length dest src) =
      some (.longForm cmd data.length (dest % 128) src)
    ∧ (encodeLongHeader cmd data.length dest src).getD 4 0 = dest ||| 128
    ∧ (dest ||| 128) &&& 128 = 128
    ∧ (encodeLongHeader cmd data.length dest src).getD 2 0 = data.length % 256
    ∧ (encodeLongHeader cmd data.length dest src).getD 3 0 = data.length / 256
    ∧ readPacket (encodeLongHeader cmd data.length dest src ++ data ++ rest) =
        (some (.long cmd data (dest % 128) src), rest) := by
  have hb : (dest ||| 128) &&& 128 = 128 := lor128_land128 dest hd
  have hb7 : (dest ||| 128) &&& 127 = dest % 128 := lor128_land127 dest hd
  have hlen : data.length % 256 + 256 * (data.length / 256) = data.length := by
    omega
  have hcmd : cmd % 256 + 256 * (cmd / 256) = cmd := by omega
  have hdec : decodeHeader (encodeLongHeader cmd data.length dest src) =
      some (.longForm cmd data.length (dest % 128) src) := by
    simp [decodeHeader, encodeLongHeader, packU16, hb, hb7, hlen, hcmd]
  refine ⟨hdec, rfl, hb, rfl, rfl, ?_⟩
  simp only [encodeLongHeader, packU16, List.cons_append, List.nil_append,
    List.append_assoc]
  have hdec6 : decodeHeader [cmd % 256, cmd / 256, data.length % 256,
      data.length / 256, dest ||| 128, src] =
      some (.longForm cmd data.length (dest % 128) src) := by
    simpa [encodeLongHeader, packU16] using hdec
  simp [readPacket, hdec6, List.take_left, List.drop_left]

theorem encodeLong_roundtrip_witness :
    decodeHeader (encodeLongHeader 0x0413 3 0x50 0x01) =
      some (.longForm 0x0413 3 (0x50 % 128) 0x01)
    ∧ (encodeLongHeader 0x0413 3 0x50 0x01).getD 4 0 = 0x50 ||| 128
    ∧ (0x50 ||| 128) &&& 128 = 128
    ∧ (encodeLongHeader 0x0413 3 0x50 0x01).getD 2 0 = 3 % 256
    ∧ (encodeLongHeader 0x0413 3 0x50 0x01).getD 3 0 = 3 / 256
    ∧ readPacket (encodeLongHeader 0x0413 3 0x50 0x01 ++ [10, 20, 30] ++ [99]) =
        (some (.long 0x0413 [10, 20, 30] (0x50 % 128) 0x01), [99]) :=
  encodeLong_roundtrip 0x0413 [10, 20, 30] 0x50 0x01 [99] (by decide)
    (by decide) (by decide) (by decide)

/-! ## Empty payload behaviour (C1) -/

/-- C1 (counterexample): `_write_packet` with the zero-length payload `[]`
does not raise: it returns the long-form header (length field 0) as written
bytes — 6 bytes reach the transport, contradicting the claim that the call
fails with an EncodingError and writes nothing. -/
theorem writePacket_empty_payload_cex :
    writePacket 0x0655 0 0 (some []) 0x50 0x01 =
      .ok [[0x55, 0x06, 0, 0, 0xD0, 0x01], []]
    ∧ ([[0x55, 0x06, 0, 0, 0xD0, 0x01], []] : List (List Nat)).flatten.length = 6 := by
  exact ⟨rfl, rfl⟩

/-- C1 (amended): a zero-length payload is accepted, not rejected: the call
returns normally, writing exactly the 6-byte long-form header whose 16-bit
length field (bytes 2-3) is zero, followed by an empty payload write — the
source's `else: raise ValueError(...)` branch is unreachable. -/
theorem writePacket_empty_payload (cmd p1 p2 dest src : Nat)
    (hc : cmd < 65536) (hd : dest < 256) (hs : src < 256) :
    writePacket cmd p1 p2 (some []) dest src =
      .ok [encodeLongHeader cmd 0 dest src, []]
    ∧ (encodeLongHeader cmd 0 dest src).length = 6
    ∧ (encodeLongHeader cmd 0 dest src).getD 2 0 = 0
    ∧ (encodeLongHeader cmd 0 dest src).getD 3 0 = 0 := by
  exact ⟨rfl, rfl, rfl, rfl⟩

theorem writePacket_empty_payload_witness :
    writePacket 0x0655 3 4 (some []) 0x50 0x01 =
      .ok [encodeLongHeader 0x0655 0 0x50 0x01, []]
    ∧ (encodeLongHeader 0x0655 0 0x50 0x01).length = 6
    ∧ (encodeLongHeader 0x0655 0 0x50 0x01).getD 2 0 = 0
    ∧ (encodeLongHeader 0x0655 0 0x50 0x01).getD 3 0 = 0 :=
  writePacket_empty_payload 0x0655 3 4 0x50 0x01 (by decide) (by decide)
    (by decide)

/-! ## Encode-direction rounding (C2) -/

/-- C2 (counterexample): at scale 10 and input -23/100 the code's
`int(x * scale + 0.5)` truncation gives -1, while round-half-up of
x * scale = -2.3 gives -2, so the encode conversion is not round-half-up
for negative inputs. -/
theorem to_raw_neg_cex :
    (0 : ℚ) < 10
    ∧ to_raw 10 (-23 / 100) = -1
    ∧ round ((-23 / 100 : ℚ) * 10) = -2
    ∧ to_raw 10 (-23 / 100) ≠ round ((-23 / 100 : ℚ) * 10) := by
  have h1 : to_raw 10 (-23 / 100) = -1 := by
    rw [to_raw, pyInt]
    norm_num
    rw [Int.ceil_eq_iff]
    norm_num
  have h2 : round ((-23 / 100 : ℚ) * 10) = -2 := by
    rw [round_eq]
    norm_num
  refine ⟨by norm_num, h1, h2, ?_⟩
  rw [h1, h2]
  decide

/-- C2 (amended): for every nonnegative physical input x and positive scale
factor, the encode-direction conversion `int(x * scale + 0.5)` equals
round-half-up of x * scale; this covers move's distance encoding and
set_vel_params' min_vel/accel/max_vel encodings for nonnegative values.
For negative inputs Python's `int` truncates toward zero, so the equation
can fail (see the counterexample). -/
theorem to_raw_eq_round (x scale : ℚ) (hx : 0 ≤ x) (hs : 0 < scale) :
    to_raw scale x = round (x * scale) := by
  have h0 : 0 ≤ x * scale + 1 / 2 := by positivity
  rw [to_raw, pyInt, if_pos h0, round_eq]

theorem to_raw_eq_round_witness : to_raw 34304 1 = round ((1 : ℚ) * 34304) :=
  to_raw_eq_round 1 34304 (by norm_num) (by norm_num)

/-! ## Jointly derived conversion factors (C7) -/

/-- C7: for every positive counts_per_unit, `set_counts_per_unit` derives
the three conversion factors together: `_v_conv = _x_conv * T * 65536` and
`_a_conv = _v_conv * T` with `T = DRIVER_T = 2048/6000000`, and the ratio
`_v_conv / _x_conv` is the constant `T * 65536` regardless of the counts
value; `set_counts_per_unit` is the only operation writing any of them. -/
theorem set_counts_per_unit_joint (counts : ℚ) (h : 0 < counts) :
    (set_counts_per_unit counts).v_conv =
      (set_counts_per_unit counts).x_conv * DRIVER_T * 65536
    ∧ (set_counts_per_unit counts).a_conv =
      (set_counts_per_unit counts).v_conv * DRIVER_T
    ∧ (set_counts_per_unit counts).v_conv / (set_counts_per_unit counts).x_conv =
      DRIVER_T * 65536 := by
  refine ⟨rfl, rfl, ?_⟩
  have hne : counts ≠ 0 := ne_of_gt h
  show counts * DRIVER_T * 65536 / counts = DRIVER_T * 65536
  field_simp
  ring

theorem set_counts_per_unit_joint_witness :
    (set_counts_per_unit 34304).v_conv =
      (set_counts_per_unit 34304).x_conv * DRIVER_T * 65536
    ∧ (set_counts_per_unit 34304).a_conv =
      (set_counts_per_unit 34304).v_conv * DRIVER_T
    ∧ (set_counts_per_unit 34304).v_conv / (set_counts_per_unit 34304).x_conv =
      DRIVER_T * 65536 :=
  set_counts_per_unit_joint 34304 (by norm_num)

/-! ## Transaction engine polling (C5, C6) -/

theorem getPacket_succ_cons_some (cmd n : Nat) (pkt : Packet)
    (rest : List (Option Packet)) (op : Bool) :
    getPacket cmd (n + 1) ⟨some pkt :: rest, op⟩ =
      if pkt.cmd = cmd then (.ok pkt, ⟨rest, op⟩)
      else getPacket cmd n ⟨rest, op⟩ := rfl

theorem getPacket_no_match_aux (cmd : Nat) :
    ∀ (n : Nat) (t : Transport),
      (∀ p ∈ t.reads.take n, ∀ pkt, p = some pkt → pkt.cmd ≠ cmd) →
      getPacket cmd n t = (.error ⟨cmd⟩, ⟨t.reads.drop n, t.isOpen⟩) := by
  intro n
  induction n with
  | zero => intro t _; rfl
  | succ n ih =>
    rintro ⟨reads, op⟩ h
    cases reads with
    | nil =>
      have step : getPacket cmd (n + 1) ⟨[], op⟩ = getPacket cmd n ⟨[], op⟩ := rfl
      rw [step]
      simpa using ih ⟨[], op⟩ (by simp)
    | cons r rest =>
      cases r with
      | none =>
        have step : getPacket cmd (n + 1) ⟨none :: rest, op⟩ =
            getPacket cmd n ⟨rest, op⟩ := rfl
        rw [step]
        have h' : ∀ p ∈ rest.take n, ∀ pkt, p = some pkt → pkt.cmd ≠ cmd := by
          intro p hp pkt hpk
          exact h p (by simp [hp]) pkt hpk
        simpa using ih ⟨rest, op⟩ h'
      | some pkt =>
        have hne : pkt.cmd ≠ cmd := h (some pkt) (by simp) pkt rfl
        rw [getPacket_succ_cons_some, if_neg hne]
        have h' : ∀ p ∈ rest.take n, ∀ pkt, p = some pkt → pkt.cmd ≠ cmd := by
          intro p hp pkt hpk
          exact h p (by simp [hp]) pkt hpk
        simpa using ih ⟨rest, op⟩ h'

/-- C5: for every expected command code, if the transport never yields a
matching packet within the 10 attempts of the polling loop, `_get_packet`
fails with a timeout error carrying the expected command code, and the
transport's open state is untouched (the loop never closes the port). -/
theorem getPacket_timeout (cmd : Nat) (t : Transport)
    (h : ∀ p ∈ t.reads.take 10, ∀ pkt, p = some pkt → pkt.cmd ≠ cmd) :
    getPacket cmd 10 t = (.error ⟨cmd⟩, ⟨t.reads.drop 10, t.isOpen⟩)
    ∧ (getPacket cmd 10 t).2.isOpen = t.isOpen := by
  have hrun := getPacket_no_match_aux cmd 10 t h
  exact ⟨hrun, by rw [hrun]⟩

theorem getPacket_timeout_witness :
    getPacket 0x0412 10 ⟨[], true⟩ =
      (.error ⟨0x0412⟩, ⟨(Transport.mk [] true).reads.drop 10, true⟩)
    ∧ (getPacket 0x0412 10 ⟨[], true⟩).2.isOpen = true :=
  getPacket_timeout 0x0412 ⟨[], true⟩ (by simp)

/-- C6: if the transport yields 5 decodable packets whose command does not
match, then one that does, `_get_packet` with 10 attempts returns the
matching packet, having consumed and discarded exactly the 5 non-matching
packets (the remaining stream is untouched). -/
theorem getPacket_discard_five (cmd : Nat) (a b c d e m : Packet)
    (rest : List (Option Packet)) (op : Bool)
    (ha : a.cmd ≠ cmd) (hb : b.cmd ≠ cmd) (hc : c.cmd ≠ cmd)
    (hd : d.cmd ≠ cmd) (he : e.cmd ≠ cmd) (hm : m.cmd = cmd) :
    getPacket cmd 10
        ⟨[some a, some b, some c, some d, some e, some m] ++ rest, op⟩ =
      (.ok m, ⟨rest, op⟩) := by
  show getPacket cmd (9 + 1) _ = _
  simp only [List.cons_append, List.nil_append]
  rw [getPacket_succ_cons_some, if_neg ha,
      getPacket_succ_cons_some, if_neg hb,
      getPacket_succ_cons_some, if_neg hc,
      getPacket_succ_cons_some, if_neg hd,
      getPacket_succ_cons_some, if_neg he,
      getPacket_succ_cons_some, if_pos hm]

theorem getPacket_discard_five_witness :
    getPacket 0x0412 10
        ⟨[some (.short 1 0 0 0x50 1), some (.short 2 0 0 0x50 1),
          some (.short 3 0 0 0x50 1), some (.short 4 0 0 0x50 1),
          some (.short 5 0 0 0x50 1), some (.short 0x0412 0 0 0x50 1)] ++
            [some (.short 9 0 0 0x50 1)], true⟩ =
      (.ok (.short 0x0412 0 0 0x50 1), ⟨[some (.short 9 0 0 0x50 1)], true⟩) :=
  getPacket_discard_five 0x0412 (.short 1 0 0 0x50 1) (.short 2 0 0 0x50 1)
    (.short 3 0 0 0x50 1) (.short 4 0 0 0x50 1) (.short 5 0 0 0x50 1)
    (.short 0x0412 0 0 0x50 1) [some (.short 9 0 0 0x50 1)] true
    (by decide) (by decide) (by decide) (by decide) (by decide) (by decide)

/-! ## Move encoding scenario (C8) -/

/-- C8: with counts_per_unit = 34304, `move(1.0, channel=1, absolute=True)`
writes an absolute-move packet with command code 0x0453 whose payload is the
16-bit channel followed by raw distance `round(1.0 * 34304) = 34304` as a
signed little-endian 32-bit integer (bytes [0, 134, 0, 0]); with
absolute=False the same payload goes out under relative-move code 0x0448. -/
theorem move_scenario :
    move 34304 1 1 true =
      .ok [[0x53, 0x04, 6, 0, 0xD0, 0x01], [1, 0, 0, 134, 0, 0]]
    ∧ move 34304 1 1 false =
      .ok [[0x48, 0x04, 6, 0, 0xD0, 0x01], [1, 0, 0, 134, 0, 0]]
    ∧ to_raw 34304 1 = 34304
    ∧ round ((1 : ℚ) * 34304) = 34304 := by
  have hraw : to_raw 34304 1 = 34304 := by
    rw [to_raw, pyInt]
    norm_num
  refine ⟨?_, ?_, hraw, by rw [round_eq]; norm_num⟩
  · simp only [move, hraw]
    rfl
  · simp only [move, hraw]
    rfl

/-! ## Output voltage range check (C9) -/

/-- C9: with max_volts already cached and positive, `set_volts(V)` for V
outside [0, max_volts] raises the range error before anything is written to
the transport (no write appears in the result), and for V inside the range
it sends payload value `round((V / max_volts) * 32767)` (as channel 1,
value) under command 0x0643. -/
theorem set_volts_spec (V maxv : ℚ) (hm : 0 < maxv) :
    ((V < 0 ∨ maxv < V) →
      set_volts maxv V = .error "V must be between 0 and max_volts")
    ∧ (0 ≤ V → V ≤ maxv →
      set_volts maxv V =
        .ok [encodeLongHeader 0x0643 4 0x50 0x01,
             packU16 1 ++ packU16 (round (V / maxv * 32767)).toNat]) := by
  constructor
  · intro hout
    rw [set_volts, if_pos hout]
  · intro h0 h1
    have hnot : ¬ (V < 0 ∨ maxv < V) := by
      push_neg
      exact ⟨h0, h1⟩
    have hdiv : (0 : ℚ) ≤ V / maxv := div_nonneg h0 (le_of_lt hm)
    have hq : (0 : ℚ) ≤ V / maxv * 32767 + 1 / 2 := by positivity
    rw [set_volts, if_neg hnot]
    rw [pyInt, if_pos hq, round_eq]
    rfl

theorem set_volts_spec_witness :
    set_volts 150 200 = .error "V must be between 0 and max_volts"
    ∧ set_volts 150 75 =
        .ok [encodeLongHeader 0x0643 4 0x50 0x01,
             packU16 1 ++ packU16 (round ((75 : ℚ) / 150 * 32767)).toNat] :=
  ⟨(set_volts_spec 200 150 (by norm_num)).1 (Or.inr (by norm_num)),
   (set_volts_spec 75 150 (by norm_num)).2 (by norm_num) (by norm_num)⟩

end PyKli
